import Mathlib

/-!
# Verification of the GameScene combat / animation-state logic

Shallow embedding of the game-logic portion of `src/components/GameScene.tsx`
(the repository has two near-identical copies of this component; the embedding
follows the fuller variant, which additionally contains the glowing-orb pickup
interaction — `checkOrbProximity`, `pickupOrb`, and the `KeyE` handler.  All
shared code is byte-identical between the two copies).

Modelling conventions:
* World positions are `Vec3` over `ℚ` (the source uses JS numbers; the claims
  under study involve only comparisons of sums/differences of small decimals,
  where exact rational arithmetic coincides with the intended real semantics).
* `checkHit` compares the Euclidean distance with the range `3.0`.  Over
  non-negative reals `dist ≤ r ↔ dist² ≤ r²`, so the executable embedding
  stores the squared distance and compares it with `hitRange²`; the main
  theorem re-states the comparison with `Real.sqrt` so that it literally
  speaks about the Euclidean distance.
* The animation mixer's time-based sampling, the per-frame orb bobbing, the
  camera follow, rendering, and asset loading are visual/engine concerns not
  touched by the claims; they are outside the model.  The per-event game
  logic (input handlers, `playAnimation`, `checkHit`, `killZombie`, the
  `animate` movement/animation block, and the three `setTimeout` callbacks)
  is translated statement by statement.
* JS `setTimeout` callbacks become `Timer` values carrying an absolute fire
  time (in seconds); the event `Event.tick dt` advances the logical clock and
  runs every due callback in fire-time order (ties resolved in scheduling
  order, as in the browser event loop).
-/

/-- A world-space position, as in `THREE.Vector3` (components modelled in ℚ). -/
structure Vec3 where
  x : ℚ
  y : ℚ
  z : ℚ
  deriving DecidableEq, Repr

/-- Squared Euclidean distance between two positions.  The source computes
`playerPosition.distanceTo(zombiePosition)` (the true Euclidean distance);
we keep its square so that the definition is executable, and relate the two
via `Real.sqrt` in the theorems. -/
def distSq (a b : Vec3) : ℚ :=
  (a.x - b.x) ^ 2 + (a.y - b.y) ^ 2 + (a.z - b.z) ^ 2

/-- `const hitRange = 3.0` in `checkHit`. -/
def hitRange : ℚ := 3

/-- `const interactionRange = 2.5` in `checkOrbProximity`. -/
def interactionRange : ℚ := 5 / 2

/-- `zombieStateRef.current`: the string `"alive"` or `"dead"`. -/
inductive ZombieState where
  | alive
  | dead
  deriving DecidableEq, Repr

/-- Embedding of `checkHit`.  The source reads `playerRef.current` and
`zombieRef.current`, which may still be `null` before the models load, so the
positions are passed as `Option`s:

```
if (!playerRef.current || !zombieRef.current ||
    zombieStateRef.current === "dead") return false;
const distance = playerPosition.distanceTo(zombiePosition);
return distance <= hitRange;
```
The comparison `distance ≤ 3` is embedded as `distSq ≤ 3²` (equivalent for
exact arithmetic; see `resolveHit_spec`). -/
def checkHit (playerPos zombiePos : Option Vec3) (zombieState : ZombieState) :
    Bool :=
  match playerPos, zombiePos with
  | none, _ => false
  | some _, none => false
  | some p, some z =>
    if zombieState = ZombieState.dead then false
    else decide (distSq p z ≤ hitRange ^ 2)

/-- `THREE.LoopRepeat` / `THREE.LoopOnce` as passed to `setLoop`. -/
inductive LoopMode where
  | loopRepeat
  | loopOnce
  deriving DecidableEq, Repr

/-- The playback-relevant configuration of a `THREE.AnimationAction`:
its loop mode and its `clampWhenFinished` flag.  In the engine a
`LoopOnce` action freezes on its last frame when and only when
`clampWhenFinished` is set (the source's own comment at the single place
that sets it reads "Stay in final pose"); with the default
`clampWhenFinished = false` a finished one-shot action is disabled and the
entity falls back out of that pose. -/
structure AnimAction where
  loop : LoopMode
  clampWhenFinished : Bool
  deriving DecidableEq, Repr

/-- Whether a single-shot action will hold its final pose on completion:
exactly the engine's `clampWhenFinished` flag (see `AnimAction`). -/
def holdsFinalPose (a : AnimAction) : Bool :=
  a.clampWhenFinished

/-- `mixer.clipAction(clip)` creates an action with the engine defaults:
`loop = LoopRepeat`, `clampWhenFinished = false`. -/
def defaultAction : AnimAction :=
  { loop := LoopMode.loopRepeat, clampWhenFinished := false }

/-- JS object lookup `actions[name]` on the string-keyed action table
(modelled as an association list). -/
def findAction : List (String × AnimAction) → String → Option AnimAction
  | [], _ => none
  | (m, a) :: rest, n => if m = n then some a else findAction rest n

/-- Overwriting assignment to an existing key of the action table. -/
def setAction :
    List (String × AnimAction) → String → AnimAction →
      List (String × AnimAction)
  | [], _, _ => []
  | (m, a) :: rest, n, b =>
    if m = n then (m, b) :: rest else (m, a) :: setAction rest n b

/-- The crossfades started by a `playAnimation` call (`fadeOut(0.2)` on the
outgoing track, `reset().fadeIn(0.2)` on the incoming one). -/
inductive FadeEvent where
  | fadeOut (name : String)
  | fadeIn (name : String)
  deriving DecidableEq, Repr

/-- The per-entity animation bookkeeping: the string-keyed action table
(`actionsRef.current`) and the currently playing state
(`currentActionRef.current`). -/
structure AnimSystem where
  actions : List (String × AnimAction)
  current : String
  deriving DecidableEq, Repr

/-- Embedding of `playAnimation(animationName, loop = true)`:

```
if (actions[animationName] && currentAction !== animationName) {
  if (actions[currentAction]) { actions[currentAction].fadeOut(0.2); }
  actions[animationName].reset().fadeIn(0.2);
  actions[animationName].setLoop(loop ? LoopRepeat : LoopOnce, Infinity);
  actions[animationName].play();
  currentActionRef.current = animationName;
}
```
Returns the updated system together with the crossfades it started.
Note that `clampWhenFinished` is never written here. -/
def playAnimation (s : AnimSystem) (animationName : String) (loop : Bool) :
    AnimSystem × List FadeEvent :=
  match findAction s.actions animationName with
  | none => (s, [])
  | some act =>
    if s.current = animationName then (s, [])
    else
      let outs : List FadeEvent :=
        match findAction s.actions s.current with
        | some _ => [FadeEvent.fadeOut s.current]
        | none => []
      let act2 : AnimAction :=
        { act with
          loop := if loop then LoopMode.loopRepeat else LoopMode.loopOnce }
      ({ actions := setAction s.actions animationName act2,
         current := animationName },
        outs ++ [FadeEvent.fadeIn animationName])

/-- The six player clips installed by `setupAnimations` (in load order). -/
def playerClipNames : List String :=
  ["idle", "attack", "walkForward", "walkBack", "strafeLeft", "strafeRight"]

/-- The two zombie clips installed by `setupZombieAnimations`. -/
def zombieClipNames : List String :=
  ["zombieIdle", "zombieDeath"]

/-- `setupAnimations` / `setupZombieAnimations`: each clip gets a fresh
default action via `mixer.clipAction`. -/
def setupActions (names : List String) : List (String × AnimAction) :=
  names.map fun n => (n, defaultAction)

/-- The player animation system right after `setupAnimations` completes
(`actions.idle.play(); currentActionRef.current = "idle"`). -/
def initPlayerAnim : AnimSystem :=
  { actions := setupActions playerClipNames, current := "idle" }

/-- The logical input codes the handlers consult (`event.code` values).
`other` stands for any other key code stored in `keysRef` but never read. -/
inductive Key where
  | keyW
  | keyS
  | keyA
  | keyD
  | arrowUp
  | arrowDown
  | arrowLeft
  | arrowRight
  | keyE
  | other
  deriving DecidableEq, Repr

/-- `keysRef.current`, restricted to the codes the program reads. -/
structure Keys where
  keyW : Bool
  keyS : Bool
  keyA : Bool
  keyD : Bool
  arrowUp : Bool
  arrowDown : Bool
  arrowLeft : Bool
  arrowRight : Bool
  keyE : Bool
  deriving DecidableEq, Repr

/-- `keysRef.current[event.code] = b`. -/
def setKey (ks : Keys) (k : Key) (b : Bool) : Keys :=
  match k with
  | Key.keyW => { ks with keyW := b }
  | Key.keyS => { ks with keyS := b }
  | Key.keyA => { ks with keyA := b }
  | Key.keyD => { ks with keyD := b }
  | Key.arrowUp => { ks with arrowUp := b }
  | Key.arrowDown => { ks with arrowDown := b }
  | Key.arrowLeft => { ks with arrowLeft := b }
  | Key.arrowRight => { ks with arrowRight := b }
  | Key.keyE => { ks with keyE := b }
  | Key.other => ks

/-- `keysRef.current["KeyW"] || keysRef.current["ArrowUp"]`. -/
def forwardPressed (k : Keys) : Bool := k.keyW || k.arrowUp

/-- `keysRef.current["KeyS"] || keysRef.current["ArrowDown"]`. -/
def backPressed (k : Keys) : Bool := k.keyS || k.arrowDown

/-- `keysRef.current["KeyA"] || keysRef.current["ArrowLeft"]`. -/
def leftPressed (k : Keys) : Bool := k.keyA || k.arrowLeft

/-- `keysRef.current["KeyD"] || keysRef.current["ArrowRight"]`. -/
def rightPressed (k : Keys) : Bool := k.keyD || k.arrowRight

/-- The `isMoving` disjunction of the return-to-idle callback (all eight
movement key codes). -/
def isMoving (k : Keys) : Bool :=
  k.keyW || k.keyS || k.keyA || k.keyD ||
    k.arrowUp || k.arrowDown || k.arrowLeft || k.arrowRight

/-- The three deferred `setTimeout` callbacks of the component. -/
inductive TimerKind where
  | hitCheck
  | attackEnd
  | orbSpawn
  deriving DecidableEq, Repr

/-- A pending one-shot timer: absolute fire time (seconds) and which
callback it runs. -/
structure Timer where
  fireAt : ℚ
  kind : TimerKind
  deriving DecidableEq, Repr

/-- The mutable state of the running scene, after all assets have loaded
(the claims under study are about the loaded, interactive session).  The
fields `deathTime`, `orbSpawnTime` and `orbSpawnCount` are specification
ghosts: they record when the death transition and the orb spawn happened
and are written exactly where those effects occur, influencing nothing. -/
structure GameState where
  time : ℚ
  playerPos : Vec3
  keys : Keys
  anim : AnimSystem
  attacking : Bool
  zombiePos : Vec3
  zombieState : ZombieState
  zombieActions : List (String × AnimAction)
  orb : Option Vec3
  timers : List Timer
  deathTime : Option ℚ
  orbSpawnTime : Option ℚ
  orbSpawnCount : Nat
  deriving DecidableEq, Repr

/-- `orb.position.copy(position); orb.position.y += 1` in
`createGlowingOrb`: the spawn position offset upward by the fixed amount 1. -/
def elevate (v : Vec3) : Vec3 :=
  { v with y := v.y + 1 }

/-- Embedding of `killZombie`:

```
if (zombieStateRef.current === "dead") return;
zombieStateRef.current = "dead";
if (actions.zombieIdle) { actions.zombieIdle.fadeOut(0.2); }
if (actions.zombieDeath) {
  actions.zombieDeath.reset().fadeIn(0.2);
  actions.zombieDeath.setLoop(THREE.LoopOnce, 1);
  actions.zombieDeath.clampWhenFinished = true; // Stay in final pose
  actions.zombieDeath.play();
}
if (zombieRef.current) { setTimeout(() => createGlowingOrb(...), 2000); }
```
In the loaded session `zombieRef.current` is set, so the orb timer is
always scheduled, at the current time plus 2 seconds. -/
def killZombie (g : GameState) : GameState :=
  if g.zombieState = ZombieState.dead then g
  else
    let acts :=
      match findAction g.zombieActions "zombieDeath" with
      | none => g.zombieActions
      | some a =>
        setAction g.zombieActions "zombieDeath"
          { a with loop := LoopMode.loopOnce, clampWhenFinished := true }
    { g with
      zombieState := ZombieState.dead,
      zombieActions := acts,
      deathTime := some g.time,
      timers := g.timers ++ [{ fireAt := g.time + 2, kind := TimerKind.orbSpawn }] }

/-- Embedding of `checkOrbProximity`: false while either ref is absent,
otherwise `distance ≤ 2.5` (squared form, as with `checkHit`). -/
def checkOrbProximity (playerPos : Vec3) (orb : Option Vec3) : Bool :=
  match orb with
  | none => false
  | some o => decide (distSq playerPos o ≤ interactionRange ^ 2)

/-- The else-if chain of the return-to-idle callback choosing the animation
to resume after an attack. -/
def resumeTarget (k : Keys) : String :=
  if isMoving k then
    if forwardPressed k then "walkForward"
    else if backPressed k then "walkBack"
    else if leftPressed k then "strafeLeft"
    else if rightPressed k then "strafeRight"
    else "idle"
  else "idle"

/-- Embedding of `handleMouseClick`:

```
if (event.button === 0 && !isAttackingRef.current) {
  isAttackingRef.current = true;
  playAnimation("attack", false);
  setTimeout(() => { if (checkHit()) killZombie(); }, 300);
  setTimeout(() => { isAttackingRef.current = false; ...resume... }, 1000);
}
```
-/
def handleMouseClick (g : GameState) (button : Nat) : GameState :=
  if button = 0 && !g.attacking then
    { g with
      attacking := true,
      anim := (playAnimation g.anim "attack" false).1,
      timers := g.timers ++
        [{ fireAt := g.time + 3 / 10, kind := TimerKind.hitCheck },
         { fireAt := g.time + 1, kind := TimerKind.attackEnd }] }
  else g

/-- Running one fired timer callback.  The game state's clock has already
been set to the timer's fire time by the scheduler (`runTimers`).
* `hitCheck` (300 ms after a click): `if (checkHit()) killZombie();`
* `attackEnd` (1000 ms after a click): clear `isAttackingRef`, then resume
  the animation chosen by the held keys (`resumeTarget`).
* `orbSpawn` (2000 ms after the death transition):
  `createGlowingOrb(zombieRef.current!.position.clone())` — the zombie never
  moves, and in the loaded session the ref is present (see
  `orbSpawnTimerCb` for the callback's behaviour on an absent ref). -/
def fireTimer (g : GameState) (k : TimerKind) : GameState :=
  match k with
  | TimerKind.hitCheck =>
    if checkHit (some g.playerPos) (some g.zombiePos) g.zombieState then
      killZombie g
    else g
  | TimerKind.attackEnd =>
    { g with
      attacking := false,
      anim := (playAnimation g.anim (resumeTarget g.keys) true).1 }
  | TimerKind.orbSpawn =>
    { g with
      orb := some (elevate g.zombiePos),
      orbSpawnTime := some g.time,
      orbSpawnCount := g.orbSpawnCount + 1 }

/-- Select the earliest pending timer that is due (fire time ≤ `target`),
returning it together with the remaining queue.  Ties in fire time resolve
to the earlier-scheduled timer, as in the browser's timer queue. -/
def pickDue : List Timer → ℚ → Option (Timer × List Timer)
  | [], _ => none
  | t :: ts, target =>
    match pickDue ts target with
    | none => if t.fireAt ≤ target then some (t, ts) else none
    | some (u, rest) =>
      if t.fireAt ≤ target ∧ t.fireAt ≤ u.fireAt then some (t, ts)
      else some (u, t :: rest)

/-- Advance the clock to `target`, firing every due timer in order; each
callback runs with the clock at its own fire time.  `fuel` bounds the number
of callback runs (a fired callback schedules at most one new timer, so the
fuel chosen by `tick` can never run out). -/
def runTimers : Nat → ℚ → GameState → GameState
  | 0, target, g => { g with time := target }
  | Nat.succ fuel, target, g =>
    match pickDue g.timers target with
    | none => { g with time := target }
    | some (u, rest) =>
      runTimers fuel target
        (fireTimer { g with timers := rest, time := u.fireAt } u.kind)

/-- Let `dt` seconds of wall-clock time pass. -/
def tick (dt : ℚ) (g : GameState) : GameState :=
  runTimers (2 * g.timers.length + 2) (g.time + dt) g

/-- Embedding of the movement / animation block of the `animate` render-loop
callback (the mixer updates, orb bobbing, camera follow and `render` call in
the same callback are visual-only and outside the model):

```
if (!isAttackingRef.current) {
  if (W || Up)    { player.position.z -= 0.1; moved = true; currentMovement = "walkForward"; }
  if (S || Down)  { player.position.z += 0.1; moved = true; currentMovement = "walkBack"; }
  if (A || Left)  { player.position.x -= 0.1; moved = true; currentMovement = "strafeLeft"; }
  if (D || Right) { player.position.x += 0.1; moved = true; currentMovement = "strafeRight"; }
}
if (!isAttackingRef.current) {
  if (moved && currentAction !== "attack") {
    if (currentAction !== currentMovement) playAnimation(currentMovement);
  } else if (!moved && currentAction !== "attack") {
    if (currentAction !== "idle") playAnimation("idle");
  }
}
```
Note the four `if`s are independent (every pressed direction moves the
player) and each assignment to `currentMovement` overwrites the previous
one, so the last matching direction selects the animation. -/
def stepFrame (g : GameState) : GameState :=
  if g.attacking then g
  else
    let k := g.keys
    let p0 := g.playerPos
    let st1 : Vec3 × Bool × String :=
      if forwardPressed k then
        ({ p0 with z := p0.z - 1 / 10 }, true, "walkForward")
      else (p0, false, "")
    let st2 : Vec3 × Bool × String :=
      if backPressed k then
        ({ st1.1 with z := st1.1.z + 1 / 10 }, true, "walkBack")
      else st1
    let st3 : Vec3 × Bool × String :=
      if leftPressed k then
        ({ st2.1 with x := st2.1.x - 1 / 10 }, true, "strafeLeft")
      else st2
    let st4 : Vec3 × Bool × String :=
      if rightPressed k then
        ({ st3.1 with x := st3.1.x + 1 / 10 }, true, "strafeRight")
      else st3
    let moved := st4.2.1
    let currentMovement := st4.2.2
    let currentAction := g.anim.current
    let animNew : AnimSystem :=
      if moved && currentAction ≠ "attack" then
        if currentAction ≠ currentMovement then
          (playAnimation g.anim currentMovement true).1
        else g.anim
      else if !moved && currentAction ≠ "attack" then
        if currentAction ≠ "idle" then (playAnimation g.anim "idle" true).1
        else g.anim
      else g.anim
    { g with playerPos := st4.1, anim := animNew }

/-- The external stimuli of the loaded session. -/
inductive Event where
  | keyDown (k : Key)
  | keyUp (k : Key)
  | mouseDown (button : Nat)
  | frame
  | tick (dt : ℚ)

/-- One event of the session.

* `keyDown` — `handleKeyDown`: record the key; on `KeyE`, if the orb is
  in range (`checkOrbProximity`), `pickupOrb` removes it.
* `keyUp` — `handleKeyUp`: record the release.
* `mouseDown` — `handleMouseClick`.
* `frame` — the movement/animation block of `animate` (`stepFrame`).
* `tick dt` — `dt` seconds pass; due `setTimeout` callbacks run. -/
def step (g : GameState) (e : Event) : GameState :=
  match e with
  | Event.keyDown k =>
    let g1 := { g with keys := setKey g.keys k true }
    if k = Key.keyE && checkOrbProximity g1.playerPos g1.orb then
      { g1 with orb := none }
    else g1
  | Event.keyUp k => { g with keys := setKey g.keys k false }
  | Event.mouseDown b => handleMouseClick g b
  | Event.frame => stepFrame g
  | Event.tick dt => tick dt g

/-- Folding a whole event sequence. -/
def run (g : GameState) : List Event → GameState
  | [] => g
  | e :: es => run (step g e) es

/-- The zombie states observed along a run (initial state included). -/
def trajectory (g : GameState) : List Event → List ZombieState
  | [] => [g.zombieState]
  | e :: es => g.zombieState :: trajectory (step g e) es

/-- Number of adjacent state changes in an observed sequence. -/
def countChanges : List ZombieState → Nat
  | [] => 0
  | [_] => 0
  | a :: b :: rest => (if a = b then 0 else 1) + countChanges (b :: rest)

/-- `playerGroup.position.set(0, 0, 0)`. -/
def playerInitPos : Vec3 := { x := 0, y := 0, z := 0 }

/-- `fbx.position.set(-5, 0, -5)` for the zombie model. -/
def zombieInitPos : Vec3 := { x := -5, y := 0, z := -5 }

/-- No key held. -/
def initKeys : Keys :=
  { keyW := false, keyS := false, keyA := false, keyD := false,
    arrowUp := false, arrowDown := false, arrowLeft := false,
    arrowRight := false, keyE := false }

/-- The session state once every asset has loaded: player at the origin,
zombie alive at (-5, 0, -5), idle animations playing, no orb, no pending
timer. -/
def initLoaded : GameState :=
  { time := 0,
    playerPos := playerInitPos,
    keys := initKeys,
    anim := initPlayerAnim,
    attacking := false,
    zombiePos := zombieInitPos,
    zombieState := ZombieState.alive,
    zombieActions := setupActions zombieClipNames,
    orb := none,
    timers := [],
    deathTime := none,
    orbSpawnTime := none,
    orbSpawnCount := 0 }

/-- The attack-resolution callback (`setTimeout(..., 300)`) viewed as a
function of the refs it may find when it fires:
`() => { if (checkHit()) { killZombie(); } }`.  `checkHit` itself begins
with null checks on both refs, so the callback is total: it never
dereferences an absent target (`Except.error` would mark a raw dereference
of a null ref). -/
def hitCheckTimerCb (playerPos zombiePos : Option Vec3)
    (st : ZombieState) : Except Unit Bool :=
  Except.ok (checkHit playerPos zombiePos st)

/-- The return-to-idle callback (`setTimeout(..., 1000)`): clears
`isAttackingRef` (a ref that exists for the component's whole lifetime) and
requests the resume animation through `playAnimation`, which no-ops on a
missing track — again no unchecked dereference. -/
def attackEndTimerCb (s : AnimSystem) (k : Keys) :
    Except Unit (Bool × AnimSystem) :=
  Except.ok (false, (playAnimation s (resumeTarget k) true).1)

/-- The death-to-pickup callback (`setTimeout(..., 2000)` in `killZombie`):
`() => { createGlowingOrb(zombieRef.current!.position.clone()); }`.
The zombie ref is tested only at scheduling time; at fire time the callback
dereferences it through the non-null assertion `!` with no check, so an
absent ref at fire time is a raw null dereference (`Except.error`). -/
def orbSpawnTimerCb (zombiePos : Option Vec3) : Except Unit Vec3 :=
  match zombiePos with
  | none => Except.error ()
  | some z => Except.ok (elevate z)

/-- The direction whose animation the `animate` block actually selects when
at least one direction is pressed: the LAST match in the source's check
order Forward, Back, Left, Right (equivalently, priority
Right > Left > Back > Forward). -/
def lastMatchTarget (k : Keys) : String :=
  if rightPressed k then "strafeRight"
  else if leftPressed k then "strafeLeft"
  else if backPressed k then "walkBack"
  else "walkForward"

/-- The position displacement the `animate` block applies: every pressed
direction contributes its axis step of 0.1 in the same frame. -/
def movedPos (k : Keys) (p : Vec3) : Vec3 :=
  { x := p.x + (if leftPressed k then -(1 / 10 : ℚ) else 0) +
          (if rightPressed k then (1 / 10 : ℚ) else 0),
    y := p.y,
    z := p.z + (if forwardPressed k then -(1 / 10 : ℚ) else 0) +
          (if backPressed k then (1 / 10 : ℚ) else 0) }

/-- Number of pending death-to-pickup (`orbSpawn`) timers. -/
def countOrb : List Timer → Nat
  | [] => 0
  | t :: ts => (if t.kind = TimerKind.orbSpawn then 1 else 0) + countOrb ts

/-- Phase 1: the enemy is still alive — no death time, no orb, no orb
spawn recorded, no pending orb timer. -/
def orbPhaseAlive (g : GameState) : Prop :=
  g.zombieState = ZombieState.alive ∧ g.deathTime = none ∧ g.orb = none ∧
    g.orbSpawnTime = none ∧ g.orbSpawnCount = 0 ∧ countOrb g.timers = 0

/-- Phase 2: the enemy died at time `T`; exactly one orb timer is pending
and it fires at `T + 2`; the orb does not exist yet. -/
def orbPhasePending (g : GameState) (T : ℚ) : Prop :=
  g.zombieState = ZombieState.dead ∧ g.deathTime = some T ∧
    countOrb g.timers = 1 ∧
    (∀ t ∈ g.timers, t.kind = TimerKind.orbSpawn → t.fireAt = T + 2) ∧
    g.orb = none ∧ g.orbSpawnTime = none ∧ g.orbSpawnCount = 0

/-- Phase 3: the orb was spawned — exactly once, exactly at `T + 2`, at the
enemy's position offset upward — and it either still exists there or has
been collected (never to respawn: no orb timer remains and the spawn count
stays 1). -/
def orbPhaseSpawned (g : GameState) (T : ℚ) : Prop :=
  g.zombieState = ZombieState.dead ∧ g.deathTime = some T ∧
    countOrb g.timers = 0 ∧ g.orbSpawnTime = some (T + 2) ∧
    g.orbSpawnCount = 1 ∧
    (g.orb = some (elevate zombieInitPos) ∨ g.orb = none)

/-- The full orb lifecycle invariant of C8. -/
def OrbLifecycle (g : GameState) : Prop :=
  g.zombiePos = zombieInitPos ∧
    (orbPhaseAlive g ∨ ∃ T, orbPhasePending g T ∨ orbPhaseSpawned g T)

/-! ## Helper lemmas -/

theorem findAction_setAction_self (l : List (String × AnimAction))
    (n : String) (b : AnimAction) (h : (findAction l n).isSome) :
    findAction (setAction l n b) n = some b := by
  induction l with
  | nil => simp [findAction] at h
  | cons hd tl ih =>
    obtain ⟨m, a⟩ := hd
    by_cases hm : m = n
    · subst hm
      simp [findAction, setAction]
    · simp only [findAction, setAction, if_neg hm] at h ⊢
      exact ih h

theorem playAnimation_current (s : AnimSystem) (n : String) (l : Bool)
    (h : (findAction s.actions n).isSome) :
    ((playAnimation s n l).1).current = n := by
  rcases hf : findAction s.actions n with _ | a
  · rw [hf] at h
    simp at h
  · by_cases hc : s.current = n
    · simp [playAnimation, hf, hc]
    · simp [playAnimation, hf, hc]

theorem checkHit_dead_aux (op oz : Option Vec3) :
    checkHit op oz ZombieState.dead = false := by
  cases op <;> cases oz <;> simp [checkHit]

theorem stepFrame_fields (g : GameState) :
    (stepFrame g).time = g.time ∧
    (stepFrame g).zombiePos = g.zombiePos ∧
    (stepFrame g).zombieState = g.zombieState ∧
    (stepFrame g).zombieActions = g.zombieActions ∧
    (stepFrame g).orb = g.orb ∧
    (stepFrame g).timers = g.timers ∧
    (stepFrame g).deathTime = g.deathTime ∧
    (stepFrame g).orbSpawnTime = g.orbSpawnTime ∧
    (stepFrame g).orbSpawnCount = g.orbSpawnCount ∧
    (stepFrame g).keys = g.keys ∧
    (stepFrame g).attacking = g.attacking := by
  cases hA : g.attacking <;>
    simp [stepFrame, hA]

/-! ## C1 — hit resolution -/

/-- C1: for every player position and enemy position, `checkHit` returns
true iff the Euclidean distance between the two positions is ≤ 3.0 and the
enemy state is `alive`; once the enemy state is `dead` it returns false
regardless of the distance (and of whether the refs are even present). -/
theorem resolveHit_spec :
    (∀ p z : Vec3, ∀ st : ZombieState,
        (checkHit (some p) (some z) st = true ↔
          Real.sqrt ((distSq p z : ℚ) : ℝ) ≤ 3 ∧ st = ZombieState.alive)) ∧
    (∀ op oz : Option Vec3, checkHit op oz ZombieState.dead = false) := by
  constructor
  · intro p z st
    have hsq : Real.sqrt ((distSq p z : ℚ) : ℝ) ≤ 3 ↔ distSq p z ≤ 9 := by
      rw [Real.sqrt_le_left (by norm_num : (0 : ℝ) ≤ 3)]
      rw [show ((3 : ℝ) ^ 2) = ((9 : ℚ) : ℝ) by norm_num]
      exact Rat.cast_le
    cases st
    · simp [checkHit, hitRange, hsq]
      norm_num
    · simp [checkHit]
  · exact checkHit_dead_aux

/-- Witness for C1: player at the origin, enemy one unit away and alive —
the hit registers. -/
theorem resolveHit_spec_witness :
    checkHit (some playerInitPos) (some { x := 1, y := 0, z := 0 })
      ZombieState.alive = true := by
  apply (resolveHit_spec.1 playerInitPos { x := 1, y := 0, z := 0 }
    ZombieState.alive).mpr
  refine ⟨?_, rfl⟩
  have h1 : distSq playerInitPos { x := 1, y := 0, z := 0 } = 1 := by
    norm_num [distSq, playerInitPos]
  rw [h1]
  push_cast
  rw [Real.sqrt_one]
  norm_num

/-! ## C10 — hit check with unloaded models -/

/-- C10: if either the player object or the enemy object has not loaded yet
(its ref is absent), `checkHit` returns false, so no hit can register
before both models finish loading. -/
theorem checkHit_absent_refs :
    (∀ (oz : Option Vec3) (st : ZombieState), checkHit none oz st = false) ∧
    (∀ (op : Option Vec3) (st : ZombieState), checkHit op none st = false) := by
  constructor
  · intro oz st; rfl
  · intro op st; cases op <;> rfl

/-! ## C6 — repeated play with the same state name -/

/-- C6: calling `playAnimation` with the currently playing state name is a
no-op for every name — the state is unchanged and no fade is triggered —
and therefore repeating a `playAnimation` call is idempotent. -/
theorem playAnimation_same_noop :
    (∀ (s : AnimSystem) (n : String) (l : Bool),
        s.current = n → playAnimation s n l = (s, [])) ∧
    (∀ (s : AnimSystem) (n : String) (l : Bool),
        playAnimation (playAnimation s n l).1 n l =
          ((playAnimation s n l).1, [])) := by
  have same : ∀ (s : AnimSystem) (n : String) (l : Bool),
      s.current = n → playAnimation s n l = (s, []) := by
    intro s n l h
    rcases hf : findAction s.actions n with _ | a
    · simp [playAnimation, hf]
    · simp [playAnimation, hf, h]
  refine ⟨same, ?_⟩
  intro s n l
  rcases hf : findAction s.actions n with _ | a
  · simp [playAnimation, hf]
  · by_cases hc : s.current = n
    · rw [same s n l hc]
      exact same s n l hc
    · have hcur : ((playAnimation s n l).1).current = n :=
        playAnimation_current s n l (by rw [hf]; rfl)
      exact same _ n l hcur

/-- Witness for C6: the loaded player system is currently `"idle"`;
requesting `"idle"` again does nothing. -/
theorem playAnimation_same_noop_witness :
    playAnimation initPlayerAnim "idle" true = (initPlayerAnim, []) :=
  playAnimation_same_noop.1 initPlayerAnim "idle" true rfl

/-! ## C7 — play with no backing track -/

/-- C7: requesting a state name with no backing track in the action table
silently does nothing: no fade is started and the current state is
unchanged. -/
theorem playAnimation_missing_noop :
    ∀ (s : AnimSystem) (n : String) (l : Bool),
      findAction s.actions n = none → playAnimation s n l = (s, []) := by
  intro s n l h
  simp [playAnimation, h]

/-- Witness for C7: the player table has no `"zombieDeath"` track, so the
request is a no-op. -/
theorem playAnimation_missing_noop_witness :
    playAnimation initPlayerAnim "zombieDeath" true = (initPlayerAnim, []) :=
  playAnimation_missing_noop initPlayerAnim "zombieDeath" true rfl

/-! ## C2 — single-shot tracks and the final pose -/

/-- Counterexample to C2 as stated: after the player's Attack is started
(`playAnimation("attack", false)` from the freshly loaded system), the
attack action is single-shot (`LoopOnce`) but its `clampWhenFinished` flag
is still the engine default `false` — `playAnimation` never sets it — so
this single-shot track does NOT hold its final pose on completion. -/
theorem attack_noclamp_counterexample :
    findAction ((playAnimation initPlayerAnim "attack" false).1).actions
        "attack"
      = some { loop := LoopMode.loopOnce, clampWhenFinished := false } ∧
    holdsFinalPose
        { loop := LoopMode.loopOnce, clampWhenFinished := false } = false := by
  exact ⟨rfl, rfl⟩

/-- C2 amended: only the enemy's Death track is configured to hold its
final pose — `killZombie` sets `LoopOnce` with `clampWhenFinished = true`
on `zombieDeath` — while the player's Attack track is started single-shot
with `clampWhenFinished` left at its default `false`. -/
theorem death_clamps_attack_resets :
    (∀ (g : GameState) (a : AnimAction),
        g.zombieState = ZombieState.alive →
        findAction g.zombieActions "zombieDeath" = some a →
        findAction (killZombie g).zombieActions "zombieDeath" =
          some { a with
                 loop := LoopMode.loopOnce, clampWhenFinished := true }) ∧
    findAction ((playAnimation initPlayerAnim "attack" false).1).actions
        "attack"
      = some { loop := LoopMode.loopOnce, clampWhenFinished := false } := by
  constructor
  · intro g a hAlive hFind
    have hne : ¬ g.zombieState = ZombieState.dead := by
      rw [hAlive]; intro h; cases h
    simp only [killZombie, if_neg hne, hFind]
    exact findAction_setAction_self _ _ _ (by rw [hFind]; rfl)
  · rfl

/-- Witness for the amended C2 at the loaded session state. -/
theorem death_clamps_attack_resets_witness :
    findAction (killZombie initLoaded).zombieActions "zombieDeath" =
      some { loop := LoopMode.loopOnce, clampWhenFinished := true } :=
  death_clamps_attack_resets.1 initLoaded defaultAction rfl rfl

/-! ## C3 — per-frame movement-animation selection -/

/-- Counterexample to C3 as stated: Forward (`KeyW`) and Right (`KeyD`)
held, not attacking.  The claim predicts the first priority match
`"walkForward"`; the `animate` block overwrites `currentMovement` in each
of its four independent `if`s, so the LAST match `"strafeRight"` is the
animation actually selected. -/
theorem animate_priority_counterexample :
    forwardPressed { initKeys with keyW := true, keyD := true } = true ∧
    (stepFrame { initLoaded with
        keys := { initKeys with keyW := true, keyD := true } }).anim.current
      = "strafeRight" ∧
    ¬ (stepFrame { initLoaded with
        keys := { initKeys with keyW := true, keyD := true } }).anim.current
      = "walkForward" := by
  refine ⟨rfl, by decide, by decide⟩

theorem current_after_select (s : AnimSystem) (t : String)
    (h : (findAction s.actions t).isSome) :
    (if ¬ s.current = t then (playAnimation s t true).1 else s).current
      = t := by
  by_cases hc : s.current = t
  · rw [if_neg (not_not_intro hc)]
    exact hc
  · rw [if_pos hc]
    exact playAnimation_current s t true h

theorem Vec3.ext_xyz (a b : Vec3) (hx : a.x = b.x) (hy : a.y = b.y)
    (hz : a.z = b.z) : a = b := by
  cases a; cases b; simp_all

theorem stepFrame_pos (g : GameState) (hAtt : g.attacking = false) :
    (stepFrame g).playerPos = movedPos g.keys g.playerPos := by
  cases hF : forwardPressed g.keys <;> cases hB : backPressed g.keys <;>
    cases hL : leftPressed g.keys <;> cases hR : rightPressed g.keys <;>
    refine Vec3.ext_xyz _ _ ?_ ?_ ?_ <;>
    simp [stepFrame, hAtt, hF, hB, hL, hR, movedPos] <;>
    ring

theorem stepFrame_anim_moved (g : GameState) (hAtt : g.attacking = false)
    (hCur : ¬ g.anim.current = "attack")
    (hPressed : (forwardPressed g.keys || backPressed g.keys ||
      leftPressed g.keys || rightPressed g.keys) = true)
    (hTrack : (findAction g.anim.actions (lastMatchTarget g.keys)).isSome) :
    (stepFrame g).anim.current = lastMatchTarget g.keys := by
  cases hF : forwardPressed g.keys <;> cases hB : backPressed g.keys <;>
    cases hL : leftPressed g.keys <;> cases hR : rightPressed g.keys <;>
    simp only [hF, hB, hL, hR, Bool.or_self, Bool.or_true, Bool.true_or,
      Bool.or_false, Bool.false_or] at hPressed
  case false.false.false.false => cases hPressed
  all_goals
    simp only [lastMatchTarget, hF, hB, hL, hR, if_true, if_false,
      ite_true, ite_false, Bool.false_eq_true, Bool.true_eq_false] at hTrack ⊢
  all_goals
    simp only [stepFrame, hAtt, hF, hB, hL, hR, hCur, Bool.false_eq_true,
      Bool.true_eq_false, if_false, if_true, ite_true, ite_false,
      Bool.true_and, Bool.and_true, decide_not, decide_eq_true_eq,
      not_false_iff, Bool.not_false, Bool.not_true, ne_eq]
  all_goals
    exact current_after_select _ _ hTrack

/-- C3 amended: on a frame where the player is not attacking (and the
current clip is not the attack clip, as the source additionally guards) and
at least one movement direction is pressed, the position update applies for
EVERY pressed direction simultaneously, but the movement animation selected
is that of the LAST pressed direction in the source's check order Forward,
Back, Left, Right — i.e. priority Right > Left > Back > Forward, not
Forward > Back > Left > Right as claimed. -/
theorem animate_moves_all_selects_last (g : GameState)
    (hAtt : g.attacking = false)
    (hCur : ¬ g.anim.current = "attack")
    (hPressed : (forwardPressed g.keys || backPressed g.keys ||
      leftPressed g.keys || rightPressed g.keys) = true)
    (hTrack : (findAction g.anim.actions (lastMatchTarget g.keys)).isSome) :
    (stepFrame g).playerPos = movedPos g.keys g.playerPos ∧
    (stepFrame g).anim.current = lastMatchTarget g.keys :=
  ⟨stepFrame_pos g hAtt,
   stepFrame_anim_moved g hAtt hCur hPressed hTrack⟩

/-- Witness for the amended C3: Forward and Right held from the loaded
state — the player moves diagonally and the Right animation is selected. -/
theorem animate_moves_all_selects_last_witness :
    (stepFrame { initLoaded with
        keys := { initKeys with keyW := true, keyD := true } }).playerPos
      = { x := 1 / 10, y := 0, z := -(1 / 10) } ∧
    (stepFrame { initLoaded with
        keys := { initKeys with keyW := true, keyD := true } }).anim.current
      = "strafeRight" := by
  have h := animate_moves_all_selects_last
    { initLoaded with keys := { initKeys with keyW := true, keyD := true } }
    rfl (by decide) rfl rfl
  refine ⟨?_, ?_⟩
  · rw [h.1]
    refine Vec3.ext_xyz _ _ ?_ ?_ ?_ <;>
      simp [movedPos, initLoaded, initKeys, playerInitPos, leftPressed,
        rightPressed, forwardPressed, backPressed]
  · rw [h.2]
    simp [lastMatchTarget, rightPressed, initKeys]

/-! ## C9 — deferred timer callbacks and target validity -/

/-- Counterexample to C9 as stated: the death-to-pickup callback
(`createGlowingOrb(zombieRef.current!.position.clone())`) performs NO
validity check at fire time — the zombie ref is checked only when the timer
is scheduled, and the callback dereferences it through the non-null
assertion — so with the ref absent at fire time it dereferences an absent
target instead of doing nothing. -/
theorem orbTimer_unchecked_deref :
    orbSpawnTimerCb none = Except.error () := rfl

/-- C9 amended: the attack-resolution callback (through `checkHit`'s null
guards) and the return-to-idle callback (which touches only refs that live
as long as the component, and requests animations through `playAnimation`'s
missing-track guard) never dereference an absent target; the death-to-pickup
callback checks the zombie ref only at scheduling time and dereferences it
unchecked when it fires. -/
theorem timer_callbacks_guarded :
    (∀ (op oz : Option Vec3) (st : ZombieState),
        hitCheckTimerCb op oz st = Except.ok (checkHit op oz st)) ∧
    (∀ (s : AnimSystem) (k : Keys),
        attackEndTimerCb s k =
          Except.ok (false, (playAnimation s (resumeTarget k) true).1)) ∧
    (∀ z : Vec3, orbSpawnTimerCb (some z) = Except.ok (elevate z)) ∧
    orbSpawnTimerCb none = Except.error () := by
  exact ⟨fun _ _ _ => rfl, fun _ _ => rfl, fun _ => rfl, rfl⟩

/-! ## C4 — the attacking window -/

/-- C4: while `attacking` is true the frame update changes nothing (no
movement-state transition, even with movement keys held) and a mouse click
starts no new attack; when the 1.0-second callback clears `attacking`, the
resume animation matches the currently held keys with priority
Forward > Back > Left > Right, defaulting to Idle. -/
theorem attacking_blocks_transitions :
    (∀ g : GameState, g.attacking = true → stepFrame g = g) ∧
    (∀ (g : GameState) (b : Nat), g.attacking = true →
        step g (Event.mouseDown b) = g) ∧
    (∀ g : GameState,
        (findAction g.anim.actions (resumeTarget g.keys)).isSome →
        (fireTimer g TimerKind.attackEnd).attacking = false ∧
        (fireTimer g TimerKind.attackEnd).anim.current =
          resumeTarget g.keys) ∧
    (∀ k : Keys, resumeTarget k =
        (if forwardPressed k then "walkForward"
         else if backPressed k then "walkBack"
         else if leftPressed k then "strafeLeft"
         else if rightPressed k then "strafeRight"
         else "idle")) := by
  refine ⟨?_, ?_, ?_, ?_⟩
  · intro g h
    simp [stepFrame, h]
  · intro g b h
    simp [step, handleMouseClick, h]
  · intro g h
    exact ⟨rfl, playAnimation_current g.anim (resumeTarget g.keys) true h⟩
  · intro k
    obtain ⟨w, s, a, d, u, dn, l, r, e⟩ := k
    cases w <;> cases s <;> cases a <;> cases d <;>
      cases u <;> cases dn <;> cases l <;> cases r <;> rfl

/-- Witness for C4: with the attack flag set nothing moves, and at the end
of the attack window the loaded session with no key held resumes `"idle"`. -/
theorem attacking_blocks_transitions_witness :
    stepFrame { initLoaded with attacking := true }
        = { initLoaded with attacking := true } ∧
    (fireTimer initLoaded TimerKind.attackEnd).anim.current = "idle" := by
  constructor
  · exact attacking_blocks_transitions.1 { initLoaded with attacking := true }
      rfl
  · exact (attacking_blocks_transitions.2.2.1 initLoaded rfl).2

/-! ## C5 — the death transition is one-way -/

theorem killZombie_dead (g : GameState)
    (h : g.zombieState = ZombieState.dead) : killZombie g = g := by
  simp [killZombie, h]

theorem fireTimer_dead (g : GameState) (k : TimerKind)
    (h : g.zombieState = ZombieState.dead) :
    (fireTimer g k).zombieState = ZombieState.dead := by
  cases k
  · rw [fireTimer, h, checkHit_dead_aux]
    simp [h]
  · exact h
  · exact h

theorem runTimers_dead (fuel : Nat) :
    ∀ (target : ℚ) (g : GameState),
      g.zombieState = ZombieState.dead →
      (runTimers fuel target g).zombieState = ZombieState.dead := by
  induction fuel with
  | zero => intro target g h; exact h
  | succ fuel ih =>
    intro target g h
    rw [runTimers]
    rcases hp : pickDue g.timers target with _ | ⟨u, rest⟩
    · exact h
    · exact ih target _ (fireTimer_dead _ _ h)

theorem step_dead (g : GameState) (e : Event)
    (h : g.zombieState = ZombieState.dead) :
    (step g e).zombieState = ZombieState.dead := by
  cases e with
  | keyDown k =>
    by_cases hc : (k = Key.keyE &&
        checkOrbProximity { g with keys := setKey g.keys k true }.playerPos
          { g with keys := setKey g.keys k true }.orb) = true
    · simp [step, hc, h]
    · simp only [step]
      rw [if_neg hc]
      exact h
  | keyUp k => exact h
  | mouseDown b =>
    by_cases hb : (b = 0 && !g.attacking) = true
    · simp [step, handleMouseClick, hb, h]
    · simp only [step, handleMouseClick]
      rw [if_neg hb]
      exact h
  | frame =>
    show (stepFrame g).zombieState = ZombieState.dead
    rw [(stepFrame_fields g).2.2.1]
    exact h
  | tick dt => exact runTimers_dead _ _ _ h

theorem run_dead (es : List Event) :
    ∀ g : GameState, g.zombieState = ZombieState.dead →
      (run g es).zombieState = ZombieState.dead := by
  induction es with
  | nil => intro g h; exact h
  | cons e es ih => intro g h; exact ih _ (step_dead g e h)

theorem trajectory_head (es : List Event) (g : GameState) :
    ∃ t, trajectory g es = g.zombieState :: t := by
  cases es
  · exact ⟨[], rfl⟩
  · exact ⟨_, rfl⟩

theorem countChanges_traj_dead (es : List Event) :
    ∀ g : GameState, g.zombieState = ZombieState.dead →
      countChanges (trajectory g es) = 0 := by
  induction es with
  | nil =>
    intro g h
    rfl
  | cons e es ih =>
    intro g h
    obtain ⟨t, ht⟩ := trajectory_head es (step g e)
    have hd : (step g e).zombieState = ZombieState.dead := step_dead g e h
    have htail : countChanges (trajectory (step g e) es) = 0 := ih _ hd
    rw [trajectory, ht, countChanges, ← ht, htail, h, hd]
    simp

theorem countChanges_traj_le (es : List Event) :
    ∀ g : GameState, countChanges (trajectory g es) ≤ 1 := by
  induction es with
  | nil =>
    intro g
    exact Nat.le_of_eq rfl |>.trans (Nat.zero_le 1)
  | cons e es ih =>
    intro g
    obtain ⟨t, ht⟩ := trajectory_head es (step g e)
    rw [trajectory, ht, countChanges, ← ht]
    by_cases h : g.zombieState = (step g e).zombieState
    · rw [if_pos h]
      simpa using ih (step g e)
    · rw [if_neg h]
      have hdead : (step g e).zombieState = ZombieState.dead := by
        rcases hz : g.zombieState with _ | _
        · rcases hz' : (step g e).zombieState with _ | _
          · exact absurd (hz.trans hz'.symm) h
          · rfl
        · exact step_dead g e hz
      rw [countChanges_traj_dead es _ hdead]

/-- C5: over any sequence of session events the enemy state changes at most
once, the only possible change at any step is Alive → Dead, and once Dead
it never changes again. -/
theorem zombie_death_monotone :
    ∀ (g : GameState) (es : List Event),
      countChanges (trajectory g es) ≤ 1 ∧
      (∀ e : Event, (step g e).zombieState ≠ g.zombieState →
        g.zombieState = ZombieState.alive ∧
          (step g e).zombieState = ZombieState.dead) ∧
      (g.zombieState = ZombieState.dead →
        countChanges (trajectory g es) = 0) := by
  intro g es
  refine ⟨countChanges_traj_le es g, ?_, countChanges_traj_dead es g⟩
  intro e hne
  rcases hz : g.zombieState with _ | _
  · refine ⟨rfl, ?_⟩
    rcases hz' : (step g e).zombieState with _ | _
    · exact absurd (hz'.trans hz.symm) hne
    · rfl
  · exact absurd (step_dead g e hz |>.trans hz.symm) hne

/-- Witness for C5 on a concrete run: death already reached, a later tick
and click leave the state Dead with zero further transitions. -/
theorem zombie_death_monotone_witness :
    countChanges (trajectory (killZombie initLoaded)
      [Event.tick 5, Event.mouseDown 0]) = 0 :=
  (zombie_death_monotone (killZombie initLoaded)
    [Event.tick 5, Event.mouseDown 0]).2.2 rfl

/-! ## C8 — orb lifecycle -/

theorem countOrb_append (a b : List Timer) :
    countOrb (a ++ b) = countOrb a + countOrb b := by
  induction a with
  | nil => simp [countOrb]
  | cons t ts ih =>
    rw [List.cons_append, countOrb, ih, countOrb]
    omega

theorem countOrb_zero_forall (l : List Timer) (h : countOrb l = 0) :
    ∀ t ∈ l, ¬ t.kind = TimerKind.orbSpawn := by
  induction l with
  | nil => intro t ht; cases ht
  | cons u us ih =>
    rw [countOrb] at h
    intro t ht hk
    rcases List.mem_cons.mp ht with rfl | hmem
    · rw [if_pos hk] at h
      omega
    · exact ih (by omega) t hmem hk

theorem countOrb_zero_of_forall (l : List Timer)
    (h : ∀ t ∈ l, ¬ t.kind = TimerKind.orbSpawn) : countOrb l = 0 := by
  induction l with
  | nil => rfl
  | cons u us ih =>
    rw [countOrb, if_neg (h u (List.mem_cons_self u us)),
      ih fun t ht => h t (List.mem_cons_of_mem u ht)]

theorem pickDue_count (target : ℚ) :
    ∀ (ts : List Timer) (u : Timer) (rest : List Timer),
      pickDue ts target = some (u, rest) →
      countOrb ts = countOrb rest +
        (if u.kind = TimerKind.orbSpawn then 1 else 0) := by
  intro ts
  induction ts with
  | nil => intro u rest h; simp [pickDue] at h
  | cons t ts ih =>
    intro u rest h
    rcases hrec : pickDue ts target with _ | ⟨u', rest'⟩ <;>
      simp only [pickDue, hrec] at h
    · split_ifs at h
      injection h with h2
      injection h2 with hu hr
      subst hu
      subst hr
      rw [countOrb]
      exact Nat.add_comm _ _
    · split_ifs at h
      · injection h with h2
        injection h2 with hu hr
        subst hu
        subst hr
        rw [countOrb]
        exact Nat.add_comm _ _
      · injection h with h2
        injection h2 with hu hr
        subst hu
        subst hr
        rw [countOrb, ih u' rest' hrec, countOrb]
        omega

theorem pickDue_mem_prop (target : ℚ) (p : Timer → Prop) :
    ∀ (ts : List Timer) (u : Timer) (rest : List Timer),
      pickDue ts target = some (u, rest) →
      (∀ t ∈ ts, p t) → p u ∧ ∀ t ∈ rest, p t := by
  intro ts
  induction ts with
  | nil => intro u rest h; simp [pickDue] at h
  | cons t ts ih =>
    intro u rest h hall
    rcases hrec : pickDue ts target with _ | ⟨u', rest'⟩ <;>
      simp only [pickDue, hrec] at h
    · split_ifs at h
      injection h with h2
      injection h2 with hu hr
      subst hu
      subst hr
      exact ⟨hall _ (List.mem_cons_self _ _),
        fun t ht => hall t (List.mem_cons_of_mem _ ht)⟩
    · have hall' : ∀ t ∈ ts, p t :=
        fun t ht => hall t (List.mem_cons_of_mem _ ht)
      split_ifs at h
      · injection h with h2
        injection h2 with hu hr
        subst hu
        subst hr
        exact ⟨hall _ (List.mem_cons_self _ _), hall'⟩
      · injection h with h2
        injection h2 with hu hr
        subst hu
        subst hr
        obtain ⟨hpu, hrest⟩ := ih u' rest' hrec hall'
        refine ⟨hpu, fun t ht => ?_⟩
        rcases List.mem_cons.mp ht with rfl | hmem
        · exact hall _ (List.mem_cons_self _ _)
        · exact hrest t hmem

theorem orbLifecycle_stable (g g' : GameState) (new : List Timer)
    (hpos : g'.zombiePos = g.zombiePos)
    (hst : g'.zombieState = g.zombieState)
    (hdt : g'.deathTime = g.deathTime)
    (hot : g'.orbSpawnTime = g.orbSpawnTime)
    (hoc : g'.orbSpawnCount = g.orbSpawnCount)
    (htm : g'.timers = g.timers ++ new)
    (hnew : ∀ t ∈ new, ¬ t.kind = TimerKind.orbSpawn)
    (horb : g'.orb = g.orb ∨ g'.orb = none)
    (h : OrbLifecycle g) : OrbLifecycle g' := by
  obtain ⟨hz, hph⟩ := h
  have hcnt : countOrb g'.timers = countOrb g.timers := by
    rw [htm, countOrb_append, countOrb_zero_of_forall new hnew]
    exact Nat.add_zero _
  refine ⟨hpos.trans hz, ?_⟩
  rcases hph with hA | ⟨T, hP | hS⟩
  · obtain ⟨h1, h2, h3, h4, h5, h6⟩ := hA
    refine Or.inl ⟨hst.trans h1, hdt.trans h2, ?_, hot.trans h4,
      hoc.trans h5, hcnt.trans h6⟩
    rcases horb with ho | ho
    · exact ho.trans h3
    · exact ho
  · obtain ⟨h1, h2, h3, h4, h5, h6, h7⟩ := hP
    refine Or.inr ⟨T, Or.inl ⟨hst.trans h1, hdt.trans h2, hcnt.trans h3,
      ?_, ?_, hot.trans h6, hoc.trans h7⟩⟩
    · intro t ht hk
      rw [htm] at ht
      rcases List.mem_append.mp ht with hmem | hmem
      · exact h4 t hmem hk
      · exact absurd hk (hnew t hmem)
    · rcases horb with ho | ho
      · exact ho.trans h5
      · exact ho
  · obtain ⟨h1, h2, h3, h4, h5, h6⟩ := hS
    refine Or.inr ⟨T, Or.inr ⟨hst.trans h1, hdt.trans h2, hcnt.trans h3,
      hot.trans h4, hoc.trans h5, ?_⟩⟩
    rcases horb with ho | ho
    · rw [ho]
      exact h6
    · exact Or.inr ho

theorem orbInv_fire (g : GameState) (target : ℚ) (u : Timer)
    (rest : List Timer)
    (hp : pickDue g.timers target = some (u, rest))
    (h : OrbLifecycle g) :
    OrbLifecycle
      (fireTimer { g with timers := rest, time := u.fireAt } u.kind) := by
  obtain ⟨hz, hph⟩ := h
  have hcount := pickDue_count target g.timers u rest hp
  cases hk : u.kind with
  | hitCheck =>
    have hcnt : countOrb rest = countOrb g.timers := by
      rw [hk] at hcount
      simp at hcount
      omega
    rcases hph with hA | ⟨T, hP | hS⟩
    · -- alive: the hit may kill
      obtain ⟨h1, h2, h3, h4, h5, h6⟩ := hA
      simp only [fireTimer]
      by_cases hhit :
          checkHit (some g.playerPos) (some g.zombiePos) g.zombieState = true
      · rw [if_pos hhit]
        have hne : ¬ (({ g with timers := rest, time := u.fireAt } :
            GameState).zombieState = ZombieState.dead) := by
          show ¬ g.zombieState = ZombieState.dead
          rw [h1]
          intro hc
          cases hc
        rw [killZombie, if_neg hne]
        refine ⟨hz, Or.inr ⟨u.fireAt, Or.inl
          ⟨rfl, rfl, ?_, ?_, h3, h4, h5⟩⟩⟩
        · show countOrb (rest ++
            [{ fireAt := u.fireAt + 2, kind := TimerKind.orbSpawn }]) = 1
          rw [countOrb_append, hcnt, h6]
          rfl
        · intro t ht hkt
          rcases List.mem_append.mp ht with hmem | hmem
          · exact absurd hkt
              (countOrb_zero_forall rest (hcnt.trans h6) t hmem)
          · rcases List.mem_singleton.mp hmem with rfl
            rfl
      · rw [if_neg hhit]
        exact ⟨hz, Or.inl ⟨h1, h2, h3, h4, h5, hcnt.trans h6⟩⟩
    · -- pending: the zombie is dead, checkHit is false
      obtain ⟨h1, h2, h3, h4, h5, h6, h7⟩ := hP
      have hhit :
          checkHit (some g.playerPos) (some g.zombiePos) g.zombieState
            = false := by
        rw [h1, checkHit_dead_aux]
      simp only [fireTimer]
      rw [hhit]
      simp only [Bool.false_eq_true, if_false]
      refine ⟨hz, Or.inr ⟨T, Or.inl ⟨h1, h2, hcnt.trans h3, ?_, h5, h6, h7⟩⟩⟩
      intro t ht hkt
      exact (pickDue_mem_prop target
        (fun t => t.kind = TimerKind.orbSpawn → t.fireAt = T + 2)
        g.timers u rest hp h4).2 t ht hkt
    · -- spawned: dead again, nothing happens
      obtain ⟨h1, h2, h3, h4, h5, h6⟩ := hS
      have hhit :
          checkHit (some g.playerPos) (some g.zombiePos) g.zombieState
            = false := by
        rw [h1, checkHit_dead_aux]
      simp only [fireTimer]
      rw [hhit]
      simp only [Bool.false_eq_true, if_false]
      exact ⟨hz, Or.inr ⟨T, Or.inr ⟨h1, h2, hcnt.trans h3, h4, h5, h6⟩⟩⟩
  | attackEnd =>
    have hcnt : countOrb rest = countOrb g.timers := by
      rw [hk] at hcount
      simp at hcount
      omega
    simp only [fireTimer]
    rcases hph with hA | ⟨T, hP | hS⟩
    · obtain ⟨h1, h2, h3, h4, h5, h6⟩ := hA
      exact ⟨hz, Or.inl ⟨h1, h2, h3, h4, h5, hcnt.trans h6⟩⟩
    · obtain ⟨h1, h2, h3, h4, h5, h6, h7⟩ := hP
      refine ⟨hz, Or.inr ⟨T, Or.inl ⟨h1, h2, hcnt.trans h3, ?_, h5, h6, h7⟩⟩⟩
      intro t ht hkt
      exact (pickDue_mem_prop target
        (fun t => t.kind = TimerKind.orbSpawn → t.fireAt = T + 2)
        g.timers u rest hp h4).2 t ht hkt
    · obtain ⟨h1, h2, h3, h4, h5, h6⟩ := hS
      exact ⟨hz, Or.inr ⟨T, Or.inr ⟨h1, h2, hcnt.trans h3, h4, h5, h6⟩⟩⟩
  | orbSpawn =>
    rw [hk] at hcount
    simp at hcount
    rcases hph with hA | ⟨T, hP | hS⟩
    · obtain ⟨h1, h2, h3, h4, h5, h6⟩ := hA
      omega
    · obtain ⟨h1, h2, h3, h4, h5, h6, h7⟩ := hP
      have hu : u.fireAt = T + 2 :=
        (pickDue_mem_prop target
          (fun t => t.kind = TimerKind.orbSpawn → t.fireAt = T + 2)
          g.timers u rest hp h4).1 hk
      simp only [fireTimer]
      refine ⟨hz, Or.inr ⟨T, Or.inr ⟨h1, h2, ?_, ?_, ?_, Or.inl ?_⟩⟩⟩
      · show countOrb rest = 0
        omega
      · show some u.fireAt = some (T + 2)
        rw [hu]
      · show g.orbSpawnCount + 1 = 1
        rw [h7]
      · show some (elevate g.zombiePos) = some (elevate zombieInitPos)
        rw [hz]
    · obtain ⟨h1, h2, h3, h4, h5, h6⟩ := hS
      omega

theorem orbInv_runTimers (fuel : Nat) :
    ∀ (target : ℚ) (g : GameState),
      OrbLifecycle g → OrbLifecycle (runTimers fuel target g) := by
  induction fuel with
  | zero =>
    intro target g h
    exact orbLifecycle_stable g _ [] rfl rfl rfl rfl rfl
      (List.append_nil _).symm (by intro t ht; cases ht) (Or.inl rfl) h
  | succ fuel ih =>
    intro target g h
    rw [runTimers]
    rcases hp : pickDue g.timers target with _ | ⟨u, rest⟩
    · exact orbLifecycle_stable g _ [] rfl rfl rfl rfl rfl
        (List.append_nil _).symm (by intro t ht; cases ht) (Or.inl rfl) h
    · exact ih target _ (orbInv_fire g target u rest hp h)

theorem orbInv_step (g : GameState) (e : Event) (h : OrbLifecycle g) :
    OrbLifecycle (step g e) := by
  cases e with
  | keyDown k =>
    by_cases hc : (k = Key.keyE && checkOrbProximity
        ({ g with keys := setKey g.keys k true } : GameState).playerPos
        ({ g with keys := setKey g.keys k true } : GameState).orb) = true
    · simp only [step, if_pos hc]
      exact orbLifecycle_stable g _ [] rfl rfl rfl rfl rfl
        (List.append_nil _).symm (by intro t ht; cases ht) (Or.inr rfl) h
    · simp only [step, if_neg hc]
      exact orbLifecycle_stable g _ [] rfl rfl rfl rfl rfl
        (List.append_nil _).symm (by intro t ht; cases ht) (Or.inl rfl) h
  | keyUp k =>
    exact orbLifecycle_stable g _ [] rfl rfl rfl rfl rfl
      (List.append_nil _).symm (by intro t ht; cases ht) (Or.inl rfl) h
  | mouseDown b =>
    by_cases hb : (b = 0 && !g.attacking) = true
    · simp only [step, handleMouseClick, if_pos hb]
      exact orbLifecycle_stable g _
        [{ fireAt := g.time + 3 / 10, kind := TimerKind.hitCheck },
         { fireAt := g.time + 1, kind := TimerKind.attackEnd }]
        rfl rfl rfl rfl rfl rfl
        (by
          intro t ht hk
          rcases List.mem_cons.mp ht with rfl | ht2
          · cases hk
          · rcases List.mem_singleton.mp ht2 with rfl
            cases hk)
        (Or.inl rfl) h
    · simp only [step, handleMouseClick, if_neg hb]
      exact orbLifecycle_stable g _ [] rfl rfl rfl rfl rfl
        (List.append_nil _).symm (by intro t ht; cases ht) (Or.inl rfl) h
  | frame =>
    obtain ⟨f1, f2, f3, f4, f5, f6, f7, f8, f9, f10, f11⟩ :=
      stepFrame_fields g
    exact orbLifecycle_stable g _ [] f2 f3 f7 f8 f9
      (f6.trans (List.append_nil _).symm) (by intro t ht; cases ht)
      (Or.inl f5) h
  | tick dt =>
    exact orbInv_runTimers _ _ g h

theorem orbInv_run (es : List Event) :
    ∀ g : GameState, OrbLifecycle g → OrbLifecycle (run g es) := by
  induction es with
  | nil => intro g h; exact h
  | cons e es ih => intro g h; exact ih _ (orbInv_step g e h)

/-- C8: along every event sequence of the loaded session, the pickup orb
obeys its lifecycle: while the enemy is alive there is no orb and no orb
timer; when the enemy dies at time `T` exactly one spawn is scheduled for
`T + 2`; the orb is spawned exactly once, exactly at `T + 2`, at the
enemy's last known position offset upward by the fixed amount, and exists
only from that spawn until the player collects it (no respawn). -/
theorem orb_spawn_lifecycle :
    ∀ es : List Event, OrbLifecycle (run initLoaded es) := by
  intro es
  apply orbInv_run
  exact ⟨rfl, Or.inl ⟨rfl, rfl, rfl, rfl, rfl, rfl⟩⟩
